import Mathlib

set_option autoImplicit false

/-!
A shallow embedding of `src/scraper.py` (a Canvas course-file scraper).

The embedding keeps the source's structure:
* `sanitize_filename` embeds the pure sanitizer (lines 14-18);
* `make_api_request` embeds the pagination loop (lines 20-63), with the
  network abstracted as a transcript of responses, one response per request
  the loop issues;
* `download_file` embeds the exception-handling skeleton of the downloader
  (lines 66-85), with the I/O body abstracted as an `Except` outcome;
* `buildRegistry` embeds the two-path registry construction of the
  `__main__` block (lines 97-150), with each API call's outcome supplied
  as data (`Option` = success / `None` failure, exactly the possible
  results of `make_api_request`);
* `splitext_ext`, `lowerChar` and `extensionAllowed` embed the extension
  filter of the download loop (lines 163-175), following CPython's
  `posixpath.splitext` and `str.lower` restricted to ASCII.
-/

namespace Scraper

/-! ## Filename sanitizer (scraper.py lines 14-18) -/

/-- The character class of the regex `[\\/*?:"<>|]` in `sanitize_filename`:
the nine characters removed entirely. -/
def isInvalidChar (c : Char) : Bool :=
  c = '\\' || c = '/' || c = '*' || c = '?' || c = ':' ||
  c = '"' || c = '<' || c = '>' || c = '|'

/-- The per-character effect of `.replace(" ", "_")`. -/
def spaceToUnderscore (c : Char) : Char :=
  if c = ' ' then '_' else c

/-- The character-list pipeline of `sanitize_filename`: first the regex
substitution deleting the nine invalid characters, then the space
replacement. -/
def processChars (l : List Char) : List Char :=
  (l.filter (fun c => !isInvalidChar c)).map spaceToUnderscore

/-- `sanitize_filename` (scraper.py lines 14-18): removes `\ / * ? : " < > |`
and replaces each space with an underscore.  Total and deterministic. -/
def sanitize_filename (s : String) : String :=
  String.mk (processChars s.data)

/-! ## Paginated fetcher (scraper.py lines 20-63)

`make_api_request` issues a request, then repeats while a `rel="next"`
link is present.  The network is abstracted as a transcript: the response
to the first request plus the list of responses to the subsequent
requests, in the order the loop would issue them. -/

/-- The parse outcome of one response body, as `make_api_request`
distinguishes them:
* `list records` — `response.json()` returned a list;
* `dict record` — `response.json()` returned a non-list that is a dict
  (appended as a single record, pagination stops);
* `scalar` — `response.json()` returned a non-list, non-dict value
  (nothing appended, pagination stops);
* `malformed` — `response.json()` raised `JSONDecodeError`. -/
inductive Body (α : Type) where
  | list (records : List α) : Body α
  | dict (record : α) : Body α
  | scalar : Body α
  | malformed : Body α
deriving DecidableEq, Repr

/-- One response of the transcript.  `failure` is the
`requests.exceptions.RequestException` path (connection error, or
`raise_for_status` on a non-success status): the except clause at lines
57-61 returns `None`.  For a `success`, `hasNext` records whether the
`Link` header carries a `rel="next"` entry; the code inspects it only
after a list body (the dict/scalar/malformed branches `continue` with
`next_url = None` first). -/
inductive Resp (α : Type) where
  | failure : Resp α
  | success (body : Body α) (hasNext : Bool) : Resp α
deriving DecidableEq, Repr

/-- The `while next_url:` loop of `make_api_request`, carrying the
accumulator `all_results`.  One transcript entry is consumed per request
issued; a structurally exhausted transcript behaves as end of pagination. -/
def fetchLoop {α : Type} : List α → Resp α → List (Resp α) → Option (List α)
  | _, Resp.failure, _ => none
  | acc, Resp.success Body.malformed _, _ => some acc
  | acc, Resp.success Body.scalar _, _ => some acc
  | acc, Resp.success (Body.dict d) _, _ => some (acc ++ [d])
  | acc, Resp.success (Body.list recs) false, _ => some (acc ++ recs)
  | acc, Resp.success (Body.list recs) true, [] => some (acc ++ recs)
  | acc, Resp.success (Body.list recs) true, r :: rest => fetchLoop (acc ++ recs) r rest

/-- `make_api_request` (scraper.py lines 20-63) over a transcript:
returns `some` of the accumulated records, or `none` (the Python `None`
failure marker) on a transport failure. -/
def make_api_request {α : Type} (first : Resp α) (rest : List (Resp α)) : Option (List α) :=
  fetchLoop [] first rest

/-- A transcript made of successful list pages (each carrying a
`rel="next"` link) followed by a given final response: the shape a server
produces for a pagination prefix ending in `last`. -/
def transcriptFrom {α : Type} : List (List α) → Resp α → List (Resp α) → Resp α × List (Resp α)
  | [], last, rest => (last, rest)
  | p :: ps, last, rest =>
    (Resp.success (Body.list p) true,
     (transcriptFrom ps last rest).1 :: (transcriptFrom ps last rest).2)

/-! ## Downloader (scraper.py lines 66-85)

`download_file` wraps its whole body in `try`, with three except clauses
in order: `requests.exceptions.RequestException`, `OSError`, `Exception`.
The body (the streaming GET, `raise_for_status`, `os.makedirs`, the
chunked writes) is abstracted as an `Except` outcome. -/

/-- The kinds of exception the downloader's body can raise. -/
inductive PyExc where
  | requestException : PyExc
  | osError : PyExc
  | otherException : PyExc
deriving DecidableEq, Repr

/-- The exception classes named by the three except clauses. -/
inductive ExcClass where
  | RequestException : ExcClass
  | OSError : ExcClass
  | Exception : ExcClass
deriving DecidableEq, Repr

/-- Python's class hierarchy for these exceptions:
`requests.exceptions.RequestException` derives from `IOError = OSError`,
and everything here derives from `Exception`. -/
def excMatches : PyExc → ExcClass → Bool
  | PyExc.requestException, ExcClass.RequestException => true
  | PyExc.requestException, ExcClass.OSError => true
  | PyExc.osError, ExcClass.OSError => true
  | _, ExcClass.Exception => true
  | _, _ => false

/-- The except clauses of `download_file`, in source order
(lines 79, 81, 83). -/
def downloadHandlers : List ExcClass :=
  [ExcClass.RequestException, ExcClass.OSError, ExcClass.Exception]

/-- Python exception dispatch: the index of the first except clause whose
class matches the raised exception, if any. -/
def firstHandler (e : PyExc) : Option Nat :=
  downloadHandlers.findIdx? (fun cls => excMatches e cls)

/-- `download_file` (scraper.py lines 66-85): the body either completes
(`return True`) or raises; a raised exception caught by clause `i` prints
that clause's distinct message and falls through to `return False`; an
exception no clause matches would propagate (`Except.error`).  The result
pairs the index of the reporting clause (`none` on success) with the
boolean returned to the caller. -/
def download_file (body : Except PyExc Unit) : Except PyExc (Option Nat × Bool) :=
  match body with
  | Except.ok _ => Except.ok (none, true)
  | Except.error e =>
    match firstHandler e with
    | some i => Except.ok (some i, false)
    | none => Except.error e

/-! ## Registry builder (`__main__`, scraper.py lines 97-150)

`files_to_download` is a Python dict from file id to a record dict.  A
Python dict is insertion-ordered; assignment to an existing key updates
the value in place, keeping the key's position.  It is modelled as an
association list plus `dictSet` with exactly those semantics. -/

/-- A record of the file-listing / file-detail endpoints, with the fields
the code reads: `id`, `display_name`, and `url` (`none` models a missing
key; the code tests it with Python truthiness, so the empty string also
counts as absent). -/
structure FileInfo where
  id : Nat
  display_name : String
  url : Option String
deriving DecidableEq, Repr

/-- The record stored in `files_to_download` (lines 107-111 and 139-143):
`{filename, url, id}`. -/
structure FileRecord where
  filename : String
  url : String
  id : Nat
deriving DecidableEq, Repr

/-- Python truthiness of `file_info.get('url')`: false for a missing key
and for the empty string. -/
def truthy : Option String → Bool
  | none => false
  | some s => !s.isEmpty

/-- The `files_to_download` dict: insertion-ordered association list. -/
abbrev Registry := List (Nat × FileRecord)

/-- The keys of the registry, in insertion order. -/
def keys (reg : Registry) : List Nat := reg.map Prod.fst

/-- Python dict assignment `d[k] = v`: update in place when `k` is
present, append otherwise. -/
def dictSet (reg : Registry) (k : Nat) (v : FileRecord) : Registry :=
  if k ∈ keys reg then reg.map (fun p => if p.1 = k then (k, v) else p)
  else reg ++ [(k, v)]

/-- The record built from a listing entry (lines 107-111, 139-143). -/
def toFileRecord (fi : FileInfo) : FileRecord :=
  ⟨fi.display_name, fi.url.getD "", fi.id⟩

/-- Path A, one entry (lines 105-113): insert when `file_info.get('url')`
is truthy (plain dict assignment — an existing key is overwritten), skip
folders otherwise. -/
def pathA_insert (reg : Registry) (fi : FileInfo) : Registry :=
  if truthy fi.url then dictSet reg fi.id (toFileRecord fi) else reg

/-- Path A (lines 103-113): `course_files` is the result of
`make_api_request` on the files endpoint; `none` (failure) skips the whole
path. -/
def pathA (reg : Registry) (course_files : Option (List FileInfo)) : Registry :=
  match course_files with
  | none => reg
  | some l => l.foldl pathA_insert reg

/-- One element of a file-detail response list: either a JSON dict (the
code then reads its fields) or some other JSON value (rejected by the
`isinstance(file_info, dict)` check at line 137). -/
inductive DetailEntry where
  | dict (fi : FileInfo) : DetailEntry
  | nondict : DetailEntry
deriving DecidableEq, Repr

/-- A module item (lines 128-150), with the fields the code reads and the
outcome of the file-detail fetch `make_api_request(file_detail_url, ...)`
attached (`none` = that call failed). -/
structure ModuleItem where
  type : String
  title : String
  url : Option String
  detailFetch : Option (List DetailEntry)
deriving DecidableEq, Repr

/-- A module (lines 121-126): inlined `items` (Python `get('items', [])`,
so a missing key is the empty list), and the outcome of the fallback
`make_api_request` on the module's items endpoint. -/
structure CourseModule where
  id : Nat
  name : String
  items : List ModuleItem
  itemsFetch : Option (List ModuleItem)
deriving DecidableEq, Repr

/-- Lines 123-126: use the inlined items when non-empty, otherwise the
fallback fetch's result with `or []` turning a failure into the empty
list (the module is skipped, the loop goes on). -/
def moduleItems (m : CourseModule) : List ModuleItem :=
  if m.items.isEmpty then m.itemsFetch.getD [] else m.items

/-- Lines 128-150, one item: only items of type `'File'` with a truthy
detail url are considered; a failed or empty detail fetch is a warning
and a skip; the first element must be a dict with a truthy url; its id is
inserted only when not already present (line 138), else skipped. -/
def resolveItem (reg : Registry) (item : ModuleItem) : Registry :=
  if item.type = "File" then
    if truthy item.url then
      match item.detailFetch with
      | some (DetailEntry.dict fi :: _) =>
        if truthy fi.url then
          if fi.id ∈ keys reg then reg else dictSet reg fi.id (toFileRecord fi)
        else reg
      | some (DetailEntry.nondict :: _) => reg
      | some [] => reg
      | none => reg
    else reg
  else reg

/-- Lines 121-150, one module: fold over its items. -/
def pathB_module (reg : Registry) (m : CourseModule) : Registry :=
  (moduleItems m).foldl resolveItem reg

/-- Path B (lines 119-150): `modules` is the result of `make_api_request`
on the modules endpoint; `none` (failure) skips the whole path. -/
def pathB (reg : Registry) (modules : Option (List CourseModule)) : Registry :=
  match modules with
  | none => reg
  | some l => l.foldl pathB_module reg

/-- The full registry construction of `__main__`: Path A first into the
empty dict, then Path B. -/
def buildRegistry (course_files : Option (List FileInfo))
    (modules : Option (List CourseModule)) : Registry :=
  pathB (pathA [] course_files) modules

/-- The ids Path A discovers with a truthy url, in listing order. -/
def discoveredA (course_files : Option (List FileInfo)) : List Nat :=
  ((course_files.getD []).filter (fun fi => truthy fi.url)).map FileInfo.id

/-- The id (if any) an item contributes: the id that reaches the
insert-or-skip-duplicate check at line 138. -/
def itemDiscovered (item : ModuleItem) : List Nat :=
  if item.type = "File" then
    if truthy item.url then
      match item.detailFetch with
      | some (DetailEntry.dict fi :: _) => if truthy fi.url then [fi.id] else []
      | _ => []
    else []
  else []

/-- All ids discovered across both paths, in discovery order
(Path A first). -/
def discoveredIds (course_files : Option (List FileInfo))
    (modules : Option (List CourseModule)) : List Nat :=
  discoveredA course_files ++
    ((modules.getD []).map (fun m => ((moduleItems m).map itemDiscovered).flatten)).flatten

/-! ## Extension filter (scraper.py lines 10, 163-175) -/

/-- `ALLOWED_EXTENSIONS` (line 10). -/
def ALLOWED_EXTENSIONS : List String :=
  [".pptx", ".pdf", ".zip", ".docx", ".py", ".ipynb", ".java", ".txt", ".csv"]

/-- ASCII `str.lower`, one character: `A`-`Z` (codes 65-90) map 32 up,
everything else is unchanged (the extensions at play are ASCII). -/
def lowerChar (c : Char) : Char :=
  if 65 ≤ c.toNat ∧ c.toNat ≤ 90 then Char.ofNat (c.toNat + 32) else c

/-- `str.lower` on a string. -/
def pyLower (s : String) : String :=
  String.mk (s.data.map lowerChar)

/-- The index of the last occurrence of `c` in `l`, or `-1` when absent —
CPython's `str.rfind`. -/
def rfind (l : List Char) (c : Char) : Int :=
  match l.reverse.findIdx? (fun d => d == c) with
  | some j => (l.length : Int) - 1 - (j : Int)
  | none => -1

/-- The extension component of CPython's `posixpath.splitext`, on the
character list: the suffix from the last dot, provided that dot lies
after the last `/` and some character strictly between the last `/` and
that dot is not itself a dot (leading dots of the basename never open an
extension). -/
def splitextChars (l : List Char) : List Char :=
  if rfind l '/' < rfind l '.' ∧
      ((l.take (rfind l '.').toNat).drop (rfind l '/' + 1).toNat).any
        (fun ch => ch != '.') then
    l.drop (rfind l '.').toNat
  else []

/-- `os.path.splitext(...)[1]` at line 167 (posix separator). -/
def splitext_ext (p : String) : String :=
  String.mk (splitextChars p.data)

/-- Lines 167-168: the extension of the original display name, lowercased,
tested for membership in `ALLOWED_EXTENSIONS`. -/
def extensionAllowed (original_filename : String) : Bool :=
  ALLOWED_EXTENSIONS.contains (pyLower (splitext_ext original_filename))

/-- The per-record decision of the download loop (lines 163-175): the
extension check runs on the registry record's filename (the original
display name; `sanitize_filename` is applied afterwards, only to form the
download target's name). -/
def shouldDownload (rec : FileRecord) : Bool :=
  extensionAllowed rec.filename

/-! ## Sanitizer lemmas and claims C7, C8 -/

theorem spaceToUnderscore_keeps_valid {c : Char} (h : isInvalidChar c = false) :
    isInvalidChar (spaceToUnderscore c) = false := by
  by_cases hsp : c = ' '
  · subst hsp; decide
  · simpa [spaceToUnderscore, hsp] using h

theorem spaceToUnderscore_idem (c : Char) :
    spaceToUnderscore (spaceToUnderscore c) = spaceToUnderscore c := by
  by_cases hsp : c = ' '
  · subst hsp; decide
  · simp [spaceToUnderscore, hsp]

theorem processChars_idem (l : List Char) :
    processChars (processChars l) = processChars l := by
  induction l with
  | nil => rfl
  | cons c l ih =>
    rcases Bool.eq_false_or_eq_true (isInvalidChar c) with hinv | hinv
    · have h1 : processChars (c :: l) = processChars l := by
        simp [processChars, List.filter_cons, hinv]
      rw [h1, ih]
    · have h1 : processChars (c :: l) = spaceToUnderscore c :: processChars l := by
        simp [processChars, List.filter_cons, hinv]
      have h2 : processChars (spaceToUnderscore c :: processChars l) =
          spaceToUnderscore (spaceToUnderscore c) :: processChars (processChars l) := by
        simp [processChars, List.filter_cons, spaceToUnderscore_keeps_valid hinv]
      rw [h1, h2, spaceToUnderscore_idem, ih]

theorem processChars_safe_noop (l : List Char)
    (h : ∀ c ∈ l, isInvalidChar c = false ∧ c ≠ ' ') :
    processChars l = l := by
  induction l with
  | nil => rfl
  | cons c l ih =>
    have hc := h c (List.mem_cons_self c l)
    have ihl := ih (fun d hd => h d (List.mem_cons_of_mem _ hd))
    have h1 : processChars (c :: l) = spaceToUnderscore c :: processChars l := by
      simp [processChars, List.filter_cons, hc.1]
    have h2 : spaceToUnderscore c = c := by simp [spaceToUnderscore, hc.2]
    rw [h1, h2, ihl]

/-- C7: for every input string, the output of `sanitize_filename` contains
none of the nine characters `\ / * ? : " < > |` and no space character
(the nine are removed outright; each space becomes an underscore); the
function is a total Lean function, hence total and deterministic. -/
theorem sanitize_output_safe (s : String) (c : Char)
    (hc : c ∈ (sanitize_filename s).data) :
    isInvalidChar c = false ∧ c ≠ ' ' := by
  have hc' : c ∈ (s.data.filter (fun c => !isInvalidChar c)).map spaceToUnderscore := hc
  rcases List.mem_map.mp hc' with ⟨a, ha, rfl⟩
  have hinv : isInvalidChar a = false := by
    simpa using (List.mem_filter.mp ha).2
  by_cases hsp : a = ' '
  · subst hsp; decide
  · have heq : spaceToUnderscore a = a := by simp [spaceToUnderscore, hsp]
    rw [heq]
    exact ⟨hinv, hsp⟩

/-- Witness for C7 at a concrete input. -/
theorem sanitize_output_safe_witness :
    ('a' ∈ (sanitize_filename "a b").data) ∧
    (isInvalidChar 'a' = false ∧ 'a' ≠ ' ') :=
  ⟨by decide, sanitize_output_safe "a b" 'a' (by decide)⟩

/-- C8: `sanitize_filename` is idempotent, and sanitizing an already-safe
string (no forbidden character, no space) is a no-op. -/
theorem sanitize_idempotent :
    (∀ x : String, sanitize_filename (sanitize_filename x) = sanitize_filename x) ∧
    (∀ x : String, (∀ c ∈ x.data, isInvalidChar c = false ∧ c ≠ ' ') →
      sanitize_filename x = x) := by
  constructor
  · intro x
    exact congrArg String.mk (processChars_idem x.data)
  · intro x hx
    show String.mk (processChars x.data) = x
    rw [processChars_safe_noop x.data hx]

/-- Witness for C8 at concrete inputs. -/
theorem sanitize_idempotent_witness :
    sanitize_filename (sanitize_filename "a b:c") = sanitize_filename "a b:c" ∧
    sanitize_filename "ab.pdf" = "ab.pdf" :=
  ⟨sanitize_idempotent.1 "a b:c", sanitize_idempotent.2 "ab.pdf" (by decide)⟩

/-! ## Paginated-fetcher lemmas and claims C2, C3, C4, C5 -/

theorem fetchLoop_transcriptFrom {α : Type} (pages : List (List α)) (last : Resp α)
    (rest : List (Resp α)) (acc : List α) :
    fetchLoop acc (transcriptFrom pages last rest).1 (transcriptFrom pages last rest).2 =
      fetchLoop (acc ++ pages.flatten) last rest := by
  induction pages generalizing acc with
  | nil => simp [transcriptFrom]
  | cons p ps ih => simp [transcriptFrom, fetchLoop, ih, List.append_assoc]

/-- C2: a successful paginated fetch over pages `pages ++ [q]`, all linked
via `rel="next"` except the last, returns the concatenation of all pages'
records in page order, preserving intra-page order, and the result length
is the sum of the page sizes. -/
theorem make_api_request_concatenates {α : Type} (pages : List (List α)) (q : List α)
    (rest : List (Resp α)) :
    make_api_request (transcriptFrom pages (Resp.success (Body.list q) false) rest).1
        (transcriptFrom pages (Resp.success (Body.list q) false) rest).2 =
      some ((pages ++ [q]).flatten) ∧
    ((pages ++ [q]).flatten).length = ((pages ++ [q]).map List.length).sum := by
  refine ⟨?_, by simp [List.length_flatten]⟩
  rw [make_api_request, fetchLoop_transcriptFrom]
  simp [fetchLoop, List.flatten_append]

/-- C3: a transport failure at any page (here: after any prefix of
successful pages) makes `make_api_request` return the failure marker
`none`, dropping the partial results; in particular a first-request
failure yields `none`, which is distinct from the empty result `some []`
of a successful empty fetch. -/
theorem make_api_request_transport_failure {α : Type} :
    (∀ (pages : List (List α)) (rest : List (Resp α)),
      make_api_request (transcriptFrom pages Resp.failure rest).1
        (transcriptFrom pages Resp.failure rest).2 = none) ∧
    (∀ rest : List (Resp α), make_api_request Resp.failure rest = none) ∧
    (∀ rest : List (Resp α), make_api_request Resp.failure rest ≠ some []) := by
  refine ⟨?_, fun _ => by simp [make_api_request, fetchLoop],
    fun _ h => by simp [make_api_request, fetchLoop] at h⟩
  intro pages rest
  rw [make_api_request, fetchLoop_transcriptFrom]
  simp [fetchLoop]

/-- Witness for C3 at a concrete transcript. -/
theorem make_api_request_transport_failure_witness :
    make_api_request (α := Nat) Resp.failure [] ≠ some [] :=
  (make_api_request_transport_failure (α := Nat)).2.2 []

/-- C4: a JSON-decode failure terminates the pagination sequence and
returns the records accumulated from the prior pages (a `some`, not the
failure marker `none`), whatever the `Link` header and the rest of the
transcript would have said. -/
theorem make_api_request_malformed_keeps_prior {α : Type} (pages : List (List α))
    (next : Bool) (rest : List (Resp α)) :
    make_api_request (transcriptFrom pages (Resp.success Body.malformed next) rest).1
        (transcriptFrom pages (Resp.success Body.malformed next) rest).2 =
      some pages.flatten := by
  rw [make_api_request, fetchLoop_transcriptFrom]
  simp [fetchLoop]

/-- C5 counterexample: a page body that parses as JSON but is neither a
list nor a dict (a scalar) is NOT appended as a single record — the
fetch of a lone scalar page returns `some []` (zero records), while the
claim demands one appended record. -/
theorem scalar_body_appends_nothing :
    make_api_request (Resp.success Body.scalar true) ([] : List (Resp Nat)) = some [] ∧
    ((make_api_request (Resp.success Body.scalar true) ([] : List (Resp Nat))).getD []).length ≠ 1 :=
  ⟨rfl, by decide⟩

/-- C5 (amended): a page body that parses as a JSON dict is appended as a
single record and pagination terminates there (any `rel="next"` link and
any further transcript are ignored); a parseable non-list body that is
not a dict (a scalar) also terminates pagination but appends nothing.
Neither is the hard-failure marker `none`. -/
theorem make_api_request_nonlist_body {α : Type} :
    (∀ (pages : List (List α)) (d : α) (next : Bool) (rest : List (Resp α)),
      make_api_request (transcriptFrom pages (Resp.success (Body.dict d) next) rest).1
          (transcriptFrom pages (Resp.success (Body.dict d) next) rest).2 =
        some (pages.flatten ++ [d])) ∧
    (∀ (pages : List (List α)) (next : Bool) (rest : List (Resp α)),
      make_api_request (transcriptFrom pages (Resp.success Body.scalar next) rest).1
          (transcriptFrom pages (Resp.success Body.scalar next) rest).2 =
        some pages.flatten) := by
  constructor
  · intro pages d next rest
    rw [make_api_request, fetchLoop_transcriptFrom]
    simp [fetchLoop]
  · intro pages next rest
    rw [make_api_request, fetchLoop_transcriptFrom]
    simp [fetchLoop]

/-! ## Downloader: claim C9 -/

/-- C9: for every outcome of the downloader's body, `download_file`
returns a boolean (never propagates an exception): success returns
`True`; each of the three failure kinds is caught by its own distinct
except clause (indices 0, 1, 2 in source order) and all collapse to the
single result `False`. -/
theorem download_file_reports_bool :
    (∀ body : Except PyExc Unit, ∃ r : Option Nat × Bool, download_file body = Except.ok r) ∧
    download_file (Except.ok ()) = Except.ok (none, true) ∧
    download_file (Except.error PyExc.requestException) = Except.ok (some 0, false) ∧
    download_file (Except.error PyExc.osError) = Except.ok (some 1, false) ∧
    download_file (Except.error PyExc.otherException) = Except.ok (some 2, false) := by
  refine ⟨?_, rfl, rfl, rfl, rfl⟩
  intro body
  match body with
  | Except.ok _ => exact ⟨(none, true), rfl⟩
  | Except.error PyExc.requestException => exact ⟨(some 0, false), rfl⟩
  | Except.error PyExc.osError => exact ⟨(some 1, false), rfl⟩
  | Except.error PyExc.otherException => exact ⟨(some 2, false), rfl⟩

/-! ## Registry lemmas and claims C1, C6 -/

theorem keys_dictSet_update (reg : Registry) (k : Nat) (v : FileRecord)
    (hk : k ∈ keys reg) : keys (dictSet reg k v) = keys reg := by
  unfold dictSet
  rw [if_pos hk]
  unfold keys
  rw [List.map_map]
  apply List.map_congr_left
  intro p _
  by_cases hpk : p.1 = k
  · simp [Function.comp, hpk]
  · simp [Function.comp, hpk]

theorem keys_dictSet_new (reg : Registry) (k : Nat) (v : FileRecord)
    (hk : k ∉ keys reg) : keys (dictSet reg k v) = keys reg ++ [k] := by
  unfold dictSet
  rw [if_neg hk]
  unfold keys
  rw [List.map_append]
  rfl

theorem keys_dictSet_mem (reg : Registry) (k : Nat) (v : FileRecord) (a : Nat) :
    a ∈ keys (dictSet reg k v) ↔ a = k ∨ a ∈ keys reg := by
  by_cases hk : k ∈ keys reg
  · rw [keys_dictSet_update reg k v hk]
    constructor
    · exact Or.inr
    · rintro (rfl | h)
      · exact hk
      · exact h
  · rw [keys_dictSet_new reg k v hk]
    simp [List.mem_append]
    tauto

theorem keys_dictSet_nodup (reg : Registry) (k : Nat) (v : FileRecord)
    (h : (keys reg).Nodup) : (keys (dictSet reg k v)).Nodup := by
  by_cases hk : k ∈ keys reg
  · rw [keys_dictSet_update reg k v hk]; exact h
  · rw [keys_dictSet_new reg k v hk]
    rw [List.nodup_append]
    exact ⟨h, List.nodup_singleton k, by simpa using hk⟩

theorem keys_pathA_insert_mem (reg : Registry) (fi : FileInfo) (a : Nat) :
    a ∈ keys (pathA_insert reg fi) ↔
      (truthy fi.url = true ∧ a = fi.id) ∨ a ∈ keys reg := by
  unfold pathA_insert
  by_cases ht : truthy fi.url
  · rw [if_pos ht, keys_dictSet_mem]
    simp [ht]
  · rw [if_neg ht]
    simp [ht]

theorem keys_pathA_fold (l : List FileInfo) (reg : Registry) (a : Nat) :
    a ∈ keys (l.foldl pathA_insert reg) ↔
      a ∈ keys reg ∨ a ∈ (l.filter (fun fi => truthy fi.url)).map FileInfo.id := by
  induction l generalizing reg with
  | nil => simp
  | cons fi l ih =>
    rw [List.foldl_cons, ih, keys_pathA_insert_mem]
    by_cases ht : truthy fi.url
    · simp [List.filter_cons, ht]
      tauto
    · simp [List.filter_cons, ht]

theorem resolveItem_eq_or (reg : Registry) (item : ModuleItem) :
    resolveItem reg item = reg ∨
    ∃ fi : FileInfo, fi.id ∉ keys reg ∧
      resolveItem reg item = dictSet reg fi.id (toFileRecord fi) := by
  unfold resolveItem
  by_cases h1 : item.type = "File"
  · by_cases h2 : truthy item.url
    · rcases hdf : item.detailFetch with _ | dl
      · simp [h1, h2, hdf]
      · rcases dl with _ | ⟨e, dl'⟩
        · simp [h1, h2, hdf]
        · rcases e with fi | _
          · by_cases h3 : truthy fi.url
            · by_cases h4 : fi.id ∈ keys reg
              · simp [h1, h2, h3, h4, hdf]
              · right
                refine ⟨fi, h4, ?_⟩
                simp [h1, h2, h3, h4, hdf]
            · simp [h1, h2, h3, hdf]
          · simp [h1, h2, hdf]
    · simp [h1, h2]
  · simp [h1]

theorem keys_resolveItem_nodup (reg : Registry) (item : ModuleItem)
    (h : (keys reg).Nodup) : (keys (resolveItem reg item)).Nodup := by
  rcases resolveItem_eq_or reg item with heq | ⟨fi, _, heq⟩ <;> rw [heq]
  · exact h
  · exact keys_dictSet_nodup _ _ _ h

theorem keys_resolveItem_mem (reg : Registry) (item : ModuleItem) (a : Nat) :
    a ∈ keys (resolveItem reg item) ↔ a ∈ keys reg ∨ a ∈ itemDiscovered item := by
  unfold resolveItem itemDiscovered
  by_cases h1 : item.type = "File"
  · by_cases h2 : truthy item.url
    · rcases hdf : item.detailFetch with _ | dl
      · simp [h1, h2, hdf]
      · rcases dl with _ | ⟨e, dl'⟩
        · simp [h1, h2, hdf]
        · rcases e with fi | _
          · by_cases h3 : truthy fi.url
            · by_cases h4 : fi.id ∈ keys reg
              · simp [h1, h2, h3, h4, hdf]
                intro ha
                rw [ha]
                exact h4
              · simp [h1, h2, h3, h4, hdf, keys_dictSet_mem]
                tauto
            · simp [h1, h2, h3, hdf]
          · simp [h1, h2, hdf]
    · simp [h1, h2]
  · simp [h1]

theorem keys_resolveItem_fold (its : List ModuleItem) (reg : Registry) (a : Nat) :
    a ∈ keys (its.foldl resolveItem reg) ↔
      a ∈ keys reg ∨ a ∈ (its.map itemDiscovered).flatten := by
  induction its generalizing reg with
  | nil => simp
  | cons it its ih =>
    rw [List.foldl_cons, ih, keys_resolveItem_mem]
    simp only [List.map_cons, List.flatten_cons, List.mem_append]
    tauto

theorem keys_pathB_fold (ms : List CourseModule) (reg : Registry) (a : Nat) :
    a ∈ keys (ms.foldl pathB_module reg) ↔
      a ∈ keys reg ∨
        a ∈ (ms.map (fun m => ((moduleItems m).map itemDiscovered).flatten)).flatten := by
  induction ms generalizing reg with
  | nil => simp
  | cons m ms ih =>
    rw [List.foldl_cons, ih]
    unfold pathB_module
    rw [keys_resolveItem_fold]
    simp only [List.map_cons, List.flatten_cons, List.mem_append]
    tauto

theorem keys_buildRegistry_mem (cf : Option (List FileInfo))
    (ms : Option (List CourseModule)) (a : Nat) :
    a ∈ keys (buildRegistry cf ms) ↔ a ∈ discoveredIds cf ms := by
  unfold buildRegistry discoveredIds discoveredA
  cases cf with
  | none =>
    cases ms with
    | none => simp [pathA, pathB, keys]
    | some l =>
      simp only [pathA, pathB, Option.getD_some, Option.getD_none]
      rw [keys_pathB_fold]
      simp [keys]
  | some lf =>
    cases ms with
    | none =>
      simp only [pathA, pathB, Option.getD_some, Option.getD_none]
      rw [keys_pathA_fold]
      simp [keys]
    | some l =>
      simp only [pathA, pathB, Option.getD_some]
      rw [keys_pathB_fold, keys_pathA_fold]
      simp [keys, List.mem_append]

theorem keys_pathA_insert_nodup (reg : Registry) (fi : FileInfo)
    (h : (keys reg).Nodup) : (keys (pathA_insert reg fi)).Nodup := by
  unfold pathA_insert
  by_cases ht : truthy fi.url
  · rw [if_pos ht]; exact keys_dictSet_nodup _ _ _ h
  · rw [if_neg ht]; exact h

theorem keys_pathA_fold_nodup (l : List FileInfo) (reg : Registry)
    (h : (keys reg).Nodup) : (keys (l.foldl pathA_insert reg)).Nodup := by
  induction l generalizing reg with
  | nil => exact h
  | cons fi l ih => exact ih _ (keys_pathA_insert_nodup reg fi h)

theorem keys_resolveItem_fold_nodup (its : List ModuleItem) (reg : Registry)
    (h : (keys reg).Nodup) : (keys (its.foldl resolveItem reg)).Nodup := by
  induction its generalizing reg with
  | nil => exact h
  | cons it its ih => exact ih _ (keys_resolveItem_nodup reg it h)

theorem keys_pathB_fold_nodup (ms : List CourseModule) (reg : Registry)
    (h : (keys reg).Nodup) : (keys (ms.foldl pathB_module reg)).Nodup := by
  induction ms generalizing reg with
  | nil => exact h
  | cons m ms ih => exact ih _ (keys_resolveItem_fold_nodup (moduleItems m) reg h)

theorem keys_buildRegistry_nodup (cf : Option (List FileInfo))
    (ms : Option (List CourseModule)) : (keys (buildRegistry cf ms)).Nodup := by
  unfold buildRegistry
  have hA : (keys (pathA [] cf)).Nodup := by
    cases cf with
    | none => exact List.nodup_nil
    | some l => exact keys_pathA_fold_nodup l [] List.nodup_nil
  cases ms with
  | none => exact hA
  | some l => exact keys_pathB_fold_nodup l _ hA

theorem buildRegistry_length (cf : Option (List FileInfo))
    (ms : Option (List CourseModule)) :
    (buildRegistry cf ms).length = (discoveredIds cf ms).dedup.length := by
  have h2 : (keys (buildRegistry cf ms)).toFinset = (discoveredIds cf ms).toFinset := by
    ext a
    simp only [List.mem_toFinset]
    exact keys_buildRegistry_mem cf ms a
  calc (buildRegistry cf ms).length
      = (keys (buildRegistry cf ms)).length := (List.length_map _ _).symm
    _ = (keys (buildRegistry cf ms)).toFinset.card :=
        (List.toFinset_card_of_nodup (keys_buildRegistry_nodup cf ms)).symm
    _ = (discoveredIds cf ms).toFinset.card := by rw [h2]
    _ = (discoveredIds cf ms).dedup.length := List.card_toFinset _

/-- C1 counterexample: deduplication is NOT first-discovery-wins for every
sequence of discovered records.  When Path A itself lists two records with
the same id (id 1, first with filename `a`, then filename `b`), the later
discovery overwrites the earlier one (plain dict assignment at lines
105-111), so the retained record is the second, not the first. -/
theorem pathA_duplicate_overwrites :
    buildRegistry (some [⟨1, "a", some "u"⟩, ⟨1, "b", some "v"⟩]) (some []) =
      [(1, ⟨"b", "v", 1⟩)] ∧
    ¬ buildRegistry (some [⟨1, "a", some "u"⟩, ⟨1, "b", some "v"⟩]) (some []) =
      [(1, ⟨"a", "u", 1⟩)] := by
  decide

/-- C1 (amended): the final registry maps each distinct discovered id to
exactly one record (its key list has no duplicates) and its size equals
the count of distinct discovered ids; a duplicate id rediscovered via
Path B is dropped (the registry is unchanged), so a duplicate shared
between Path A and Path B keeps the Path A record; but within Path A a
later duplicate OVERWRITES the earlier record (Python dict assignment),
so the retained record is not in general the first discovered. -/
theorem registry_dedup_amended :
    (∀ (cf : Option (List FileInfo)) (ms : Option (List CourseModule)),
      (keys (buildRegistry cf ms)).Nodup) ∧
    (∀ (cf : Option (List FileInfo)) (ms : Option (List CourseModule)) (a : Nat),
      a ∈ keys (buildRegistry cf ms) ↔ a ∈ discoveredIds cf ms) ∧
    (∀ (cf : Option (List FileInfo)) (ms : Option (List CourseModule)),
      (buildRegistry cf ms).length = (discoveredIds cf ms).dedup.length) ∧
    (∀ (reg : Registry) (item : ModuleItem) (fi : FileInfo),
      item.detailFetch = some [DetailEntry.dict fi] → fi.id ∈ keys reg →
      resolveItem reg item = reg) ∧
    buildRegistry (some [⟨1, "a", some "u"⟩])
        (some [⟨5, "m", [⟨"File", "t", some "du",
          some [DetailEntry.dict ⟨1, "other", some "w"⟩]⟩], none⟩]) =
      [(1, ⟨"a", "u", 1⟩)] ∧
    buildRegistry (some [⟨1, "a", some "u"⟩, ⟨1, "b", some "v"⟩]) none =
      [(1, ⟨"b", "v", 1⟩)] := by
  refine ⟨keys_buildRegistry_nodup, keys_buildRegistry_mem, buildRegistry_length,
    ?_, by decide, by decide⟩
  intro reg item fi hdf hmem
  unfold resolveItem
  by_cases h1 : item.type = "File"
  · by_cases h2 : truthy item.url
    · by_cases h3 : truthy fi.url
      · simp [h1, h2, h3, hdf, hmem]
      · simp [h1, h2, h3, hdf]
    · simp [h1, h2]
  · simp [h1]

/-- Witness for the amended C1 at concrete inputs: a Path B rediscovery of
an id already in the registry leaves the registry unchanged. -/
theorem registry_dedup_amended_witness :
    resolveItem [(1, ⟨"a", "u", 1⟩)]
        ⟨"File", "t", some "du", some [DetailEntry.dict ⟨1, "x", some "w"⟩]⟩ =
      [(1, ⟨"a", "u", 1⟩)] :=
  registry_dedup_amended.2.2.2.1 [(1, ⟨"a", "u", 1⟩)]
    ⟨"File", "t", some "du", some [DetailEntry.dict ⟨1, "x", some "w"⟩]⟩
    ⟨1, "x", some "w"⟩ rfl (by decide)

/-- C6: per-item failures during registry building are isolated.
(1) A module whose items are not inlined and whose items fetch failed
contributes nothing, and the traversal of the other modules is unchanged;
(2) an item whose file-detail fetch failed contributes nothing, and the
traversal of the other items is unchanged; (3) a failure of the top-level
file listing only empties Path A's contribution — Path B proceeds as if
Path A had found nothing; (4) a failure of the modules fetch leaves the
Path A registry as the final result. -/
theorem per_item_failures_isolated :
    (∀ (reg : Registry) (ms1 ms2 : List CourseModule) (m : CourseModule),
      m.items = [] → m.itemsFetch = none →
      pathB reg (some (ms1 ++ m :: ms2)) = pathB reg (some (ms1 ++ ms2))) ∧
    (∀ (reg : Registry) (its1 its2 : List ModuleItem) (item : ModuleItem),
      item.detailFetch = none →
      (its1 ++ item :: its2).foldl resolveItem reg =
        (its1 ++ its2).foldl resolveItem reg) ∧
    (∀ ms : Option (List CourseModule),
      buildRegistry none ms = buildRegistry (some []) ms) ∧
    (∀ cf : Option (List FileInfo), buildRegistry cf none = pathA [] cf) := by
  refine ⟨?_, ?_, fun ms => rfl, fun cf => rfl⟩
  · intro reg ms1 ms2 m h1 h2
    simp only [pathB, List.foldl_append, List.foldl_cons]
    have hm : ∀ r : Registry, pathB_module r m = r := by
      intro r
      unfold pathB_module moduleItems
      rw [h1, h2]
      rfl
    rw [hm]
  · intro reg its1 its2 item hdf
    simp only [List.foldl_append, List.foldl_cons]
    have hi : ∀ r : Registry, resolveItem r item = r := by
      intro r
      unfold resolveItem
      rw [hdf]
      by_cases h1 : item.type = "File"
      · by_cases h2 : truthy item.url
        · simp [h1, h2]
        · simp [h1, h2]
      · simp [h1]
    rw [hi]

/-- Witness for C6 at concrete inputs. -/
theorem per_item_failures_isolated_witness :
    pathB [] (some ([] ++ (⟨7, "m", [], none⟩ : CourseModule) :: [])) =
      pathB [] (some ([] ++ [])) ∧
    ([] ++ (⟨"File", "t", some "du", none⟩ : ModuleItem) :: []).foldl resolveItem [] =
      ([] ++ []).foldl resolveItem [] :=
  ⟨per_item_failures_isolated.1 [] [] [] ⟨7, "m", [], none⟩ rfl rfl,
   per_item_failures_isolated.2.1 [] [] [] ⟨"File", "t", some "du", none⟩ rfl⟩

/-! ## Extension-filter lemmas and claim C10 -/

theorem char_eq_of_toNat_eq {c d : Char} (h : c.toNat = d.toNat) : c = d :=
  Char.ext (UInt32.toNat.inj h)

theorem toNat_ofNat_valid (n : Nat) (h : n.isValidChar) : (Char.ofNat n).toNat = n := by
  simp [Char.ofNat, h, Char.ofNatAux, Char.toNat, UInt32.toNat]

theorem lowerChar_toNat (c : Char) :
    (lowerChar c).toNat =
      if 65 ≤ c.toNat ∧ c.toNat ≤ 90 then c.toNat + 32 else c.toNat := by
  unfold lowerChar
  split
  · next h =>
    rw [toNat_ofNat_valid]
    exact Or.inl (by omega)
  · rfl

theorem lowerChar_low_fix {c : Char} (h : c.toNat < 65) : lowerChar c = c := by
  unfold lowerChar
  rw [if_neg (by omega)]

theorem lowerChar_high_fix {c : Char} (h : 90 < c.toNat) : lowerChar c = c := by
  unfold lowerChar
  rw [if_neg (by omega)]

theorem lowerChar_eq_low_iff {c d : Char} (hd : d.toNat < 65) :
    lowerChar c = d ↔ c = d := by
  constructor
  · intro h
    have ht := congrArg Char.toNat h
    rw [lowerChar_toNat] at ht
    split at ht
    · next hr => omega
    · exact char_eq_of_toNat_eq ht
  · intro h
    subst h
    exact lowerChar_low_fix hd

theorem lowerChar_idem (c : Char) : lowerChar (lowerChar c) = lowerChar c := by
  by_cases h : 65 ≤ c.toNat ∧ c.toNat ≤ 90
  · apply lowerChar_high_fix
    rw [lowerChar_toNat, if_pos h]
    omega
  · have hfix : lowerChar c = c := by unfold lowerChar; rw [if_neg h]
    rw [hfix]
    exact hfix

theorem lowerChar_beq_low {d : Char} (hd : d.toNat < 65) (c : Char) :
    (lowerChar c == d) = (c == d) := by
  by_cases h : c = d
  · subst h
    rw [lowerChar_low_fix hd]
  · have h2 : lowerChar c ≠ d := fun hh => h ((lowerChar_eq_low_iff hd).mp hh)
    simp [beq_iff_eq, h, h2]

theorem rfind_map_lowerChar (l : List Char) {d : Char} (hd : d.toNat < 65) :
    rfind (l.map lowerChar) d = rfind l d := by
  unfold rfind
  rw [← List.map_reverse, List.findIdx?_map]
  have hp : ((fun x => x == d) ∘ lowerChar) = (fun x => x == d) := by
    funext c
    exact lowerChar_beq_low hd c
  rw [hp, List.length_map]

theorem splitextChars_map_lowerChar (l : List Char) :
    splitextChars (l.map lowerChar) = (splitextChars l).map lowerChar := by
  unfold splitextChars
  rw [rfind_map_lowerChar l (show ('/' : Char).toNat < 65 by decide),
      rfind_map_lowerChar l (show ('.' : Char).toNat < 65 by decide),
      ← List.map_take, ← List.map_drop, List.any_map]
  have hp : ((fun ch => ch != '.') ∘ lowerChar) = (fun ch => ch != '.') := by
    funext c
    have := lowerChar_beq_low (show ('.' : Char).toNat < 65 by decide) c
    simp [Function.comp, bne, this]
  rw [hp]
  split
  · rw [List.map_drop]
  · rfl

theorem splitext_ext_pyLower (s : String) :
    splitext_ext (pyLower s) = pyLower (splitext_ext s) := by
  unfold splitext_ext pyLower
  exact congrArg String.mk (splitextChars_map_lowerChar s.data)

theorem pyLower_idem (s : String) : pyLower (pyLower s) = pyLower s := by
  unfold pyLower
  apply congrArg String.mk
  show (s.data.map lowerChar).map lowerChar = s.data.map lowerChar
  rw [List.map_map]
  apply List.map_congr_left
  intro c _
  exact lowerChar_idem c

theorem extensionAllowed_pyLower (s : String) :
    extensionAllowed (pyLower s) = extensionAllowed s := by
  unfold extensionAllowed
  rw [splitext_ext_pyLower, pyLower_idem]

/-- C10: the extension allow-list filter is case-insensitive on the
filename's extension: the decision is invariant under lowercasing the
whole (original, unsanitized) display name, the allow-list itself is
lowercase, and concretely `Report.PDF` passes the filter exactly like
`Report.pdf` while a non-allow-listed extension does not. -/
theorem extension_filter_case_insensitive :
    (∀ s : String, extensionAllowed (pyLower s) = extensionAllowed s) ∧
    (∀ rec : FileRecord, shouldDownload rec = extensionAllowed (pyLower rec.filename)) ∧
    (ALLOWED_EXTENSIONS.all fun e => pyLower e == e) = true ∧
    extensionAllowed "Report.PDF" = true ∧
    extensionAllowed "Report.pdf" = true ∧
    extensionAllowed "setup.PY" = true ∧
    extensionAllowed "image.png" = false := by
  refine ⟨extensionAllowed_pyLower, ?_, by decide, by decide, by decide, by decide,
    by decide⟩
  intro rec
  exact (extensionAllowed_pyLower rec.filename).symm

end Scraper
